import Mathlib

/-!
# Verification of the image-composer editor core

Shallow embedding of the repository's state model and operations:

* `src/lib/editor-store.ts` — the Zustand store: `EditorState`, the
  `{past, present, future}` history stack, `createHistoryState`,
  the layer operations, `undo`/`redo`, and the `ExportManager`
  (`exportToPNG` draw-command extraction, `exportProjectData`,
  `importProjectData`).
* `src/components/konva-canvas.tsx` / `src/components/canvas-wrapper.tsx` —
  the visible-layer filters of the two live-preview renderers.

JavaScript numbers are modelled as `ℚ` (all arithmetic relevant to the
theorems below is exact in binary doubles, so the idealisation is faithful
on the inputs considered).  JS `undefined`-able fields are `Option`s and
JS truthiness is made explicit (`jsTruthyQ`, `jsTruthyB`, `jsOrQ`, ...).
-/

/-- `ImageData` from `src/lib/editor-store.ts` (lines 5–11). -/
structure ImageData where
  src : String
  width : ℚ
  height : ℚ
  displayWidth : ℚ
  displayHeight : ℚ
deriving DecidableEq

/-- `TextLayer` from `src/lib/editor-store.ts` (lines 13–39).  Optional
(`?`) fields are `Option`s; `zIndex` is carried at runtime by the layers the
UI creates (`src/unnamed/part_001`) and read by the renderers and the
exporter via `layer.zIndex || 0`, so it is part of the runtime data model
even though the TS interface omits it. -/
structure TextLayer where
  id : String
  text : String
  x : ℚ
  y : ℚ
  fontSize : ℚ
  fontFamily : String
  fontWeight : Option String
  fill : String
  opacity : ℚ
  align : String
  lineHeight : ℚ
  letterSpacing : ℚ
  shadowColor : String
  shadowBlur : ℚ
  shadowOffsetX : ℚ
  shadowOffsetY : ℚ
  width : Option ℚ
  rotation : Option ℚ
  scaleX : Option ℚ
  scaleY : Option ℚ
  locked : Option Bool
  visible : Option Bool
  fontStyle : Option String
  textDecoration : Option String
  shadowOpacity : Option ℚ
  zIndex : Option ℚ
deriving DecidableEq

/-- `CustomFont` from `src/lib/font-manager.ts`. -/
structure CustomFont where
  id : String
  name : String
  family : String
  url : String
  fontType : String
  loaded : Bool
deriving DecidableEq

/-- The transient snap-guide record `{ x?: number; y?: number }`. -/
structure SnapGuides where
  x : Option ℚ
  y : Option ℚ
deriving DecidableEq

/-- `EditorState` from `src/lib/editor-store.ts` (lines 41–48). -/
structure EditorState where
  imageData : Option ImageData
  textLayers : List TextLayer
  selectedLayerId : Option String
  selectedLayerIds : List String
  snapGuides : SnapGuides
  customFonts : List CustomFont
deriving DecidableEq

/-- `HistoryState` from `src/lib/editor-store.ts` (lines 50–54), generic in
the snapshotted state type (the TS code is untyped at runtime; the store
instantiates it with `EditorState`). -/
structure HistoryState (σ : Type) where
  past : List σ
  present : σ
  future : List σ
deriving DecidableEq

/-- `initialState` (lines 85–92). -/
def initialState : EditorState :=
  { imageData := none
    textLayers := []
    selectedLayerId := none
    selectedLayerIds := []
    snapGuides := ⟨none, none⟩
    customFonts := [] }

/-- `MAX_HISTORY_SIZE = 25` (line 94). -/
def MAX_HISTORY_SIZE : Nat := 25

/-- JS `array.slice(-n)`: the last `n` elements (the whole array when it is
shorter). -/
def takeLast (l : List α) (n : Nat) : List α :=
  l.drop (l.length - n)

/-- `createHistoryState` (lines 97–105):
`past ← [...past, present].slice(-MAX_HISTORY_SIZE)`, install the new
present, clear `future`. -/
def createHistoryState (newPresent : σ) (currentHistory : HistoryState σ) :
    HistoryState σ :=
  { past := takeLast (currentHistory.past ++ [currentHistory.present]) MAX_HISTORY_SIZE
    present := newPresent
    future := [] }

/-- `undo` (lines 267–279): no-op when `past` is empty, else pop the last
past state into `present` and push the old present onto the front of
`future`. -/
def undo (h : HistoryState σ) : HistoryState σ :=
  match h.past.getLast? with
  | none => h
  | some previous =>
      { past := h.past.dropLast
        present := previous
        future := h.present :: h.future }

/-- `redo` (lines 281–293): no-op when `future` is empty, else shift the
first future state into `present` and append the old present to `past`. -/
def redo (h : HistoryState σ) : HistoryState σ :=
  match h.future with
  | [] => h
  | next :: rest =>
      { past := h.past ++ [h.present]
        present := next
        future := rest }

/-- A sequence of committed states applied in order: each element is the
`newPresent` handed to `createHistoryState` by one mutating action. -/
def commitList (ss : List σ) (h : HistoryState σ) : HistoryState σ :=
  ss.foldl (fun acc s => createHistoryState s acc) h

/-- The empty initial history of the store (lines 116–118). -/
def emptyHistory : HistoryState EditorState :=
  { past := [], present := initialState, future := [] }

/-- Remove the last `k` elements of a list. -/
def dropLastN (l : List α) (k : Nat) : List α :=
  l.take (l.length - k)

/-! ## JS truthiness helpers -/

/-- Truthiness of a JS number that may be `undefined`: `undefined` and `0`
are falsy, every other (finite) number is truthy. -/
def jsTruthyQ (o : Option ℚ) : Bool :=
  decide (o.getD 0 ≠ 0)

/-- Truthiness of a JS boolean that may be `undefined`. -/
def jsTruthyB (o : Option Bool) : Bool :=
  o.getD false

/-- JS `o || d` on a possibly-`undefined` number. -/
def jsOrQ (o : Option ℚ) (d : ℚ) : ℚ :=
  if jsTruthyQ o then o.getD d else d

/-- JS `o || d` on a possibly-`undefined` string (`""` is falsy). -/
def jsOrS (o : Option String) (d : String) : String :=
  match o with
  | some s => if s = "" then d else s
  | none => d

/-! ## Store operations (`src/lib/editor-store.ts`) -/

/-- `setImageData` (lines 121–125). -/
def setImageData (imageData : Option ImageData) (h : HistoryState EditorState) :
    HistoryState EditorState :=
  createHistoryState { h.present with imageData := imageData } h

/-- `addTextLayer` (lines 128–136): unconditionally appends the layer and
selects it; the source performs no duplicate-id check. -/
def addTextLayer (layer : TextLayer) (h : HistoryState EditorState) :
    HistoryState EditorState :=
  createHistoryState
    { h.present with
        textLayers := h.present.textLayers ++ [layer]
        selectedLayerId := some layer.id } h

/-- `setSelectedLayerId` (lines 227–232): mutates only
`present.selectedLayerId`, without `createHistoryState`. -/
def setSelectedLayerId (id : Option String) (h : HistoryState EditorState) :
    HistoryState EditorState :=
  { h with present := { h.present with selectedLayerId := id } }

/-- `toggleLayerLock` (lines 201–213): flips `locked` on the matching
layer; the committed `selectedLayerId` is the old selection when the layer
was locked (truthy `locked`) and `null` otherwise — unconditionally, not
only when the toggled layer was selected. -/
def toggleLayerLock (id : String) (h : HistoryState EditorState) :
    HistoryState EditorState :=
  match h.present.textLayers.find? (fun l => l.id == id) with
  | none => h
  | some layer =>
      createHistoryState
        { h.present with
            textLayers := h.present.textLayers.map (fun l =>
              if l.id == id then { l with locked := some (!jsTruthyB l.locked) }
              else l)
            selectedLayerId :=
              if jsTruthyB layer.locked then h.present.selectedLayerId
              else none } h

/-! ## JS array semantics for `moveLayerUp` / `moveLayerDown`

`moveLayerUp` (lines 157–167) and `moveLayerDown` (lines 169–179) use
`findIndex` (which yields `-1` on a missing id) and a destructuring swap on
a copied array.  A JS array read at `-1` yields `undefined` and a write at
`-1` creates a non-index property, leaving the array elements untouched, so
the swap can plant `undefined` into the copied array.  Arrays that may hold
such holes are modelled as `List (Option TextLayer)`. -/

/-- `layers.findIndex(l => l.id === id)`: the index, or `-1` when absent. -/
def jsFindIndex (layers : List TextLayer) (id : String) : Int :=
  match layers.findIdx? (fun l => l.id == id) with
  | some i => (i : Int)
  | none => -1

/-- JS read `arr[i]`: `undefined` for a negative or out-of-range index. -/
def jsGetLayer (arr : List (Option TextLayer)) (i : Int) : Option TextLayer :=
  if i < 0 then none else arr.getD i.toNat none

/-- JS write `arr[i] = v`: a write at a negative index creates a plain
property and leaves the array elements unchanged.  (In-range writes are the
only non-negative writes the swap performs.) -/
def jsSetLayer (arr : List (Option TextLayer)) (i : Int) (v : Option TextLayer) :
    List (Option TextLayer) :=
  if i < 0 then arr else arr.set i.toNat v

/-- The destructuring swap `[layers[i], layers[j]] = [layers[j], layers[i]]`
on a fresh copy of `layers`: the right-hand side is evaluated first, then
`layers[i]` and `layers[j]` are assigned in order. -/
def jsSwapWith (layers : List TextLayer) (i j : Int) : List (Option TextLayer) :=
  jsSetLayer (jsSetLayer (layers.map some) i (jsGetLayer (layers.map some) j)) j
    (jsGetLayer (layers.map some) i)

/-- The layer array `moveLayerUp` commits (`some`), or `none` when the
guard `index < layers.length - 1` fails and nothing is set. -/
def moveLayerUpCommit (id : String) (layers : List TextLayer) :
    Option (List (Option TextLayer)) :=
  if jsFindIndex layers id < (layers.length : Int) - 1 then
    some (jsSwapWith layers (jsFindIndex layers id) (jsFindIndex layers id + 1))
  else none

/-- The layer array `moveLayerDown` commits (`some`), or `none` when the
guard `index > 0` fails and nothing is set. -/
def moveLayerDownCommit (id : String) (layers : List TextLayer) :
    Option (List (Option TextLayer)) :=
  if jsFindIndex layers id > 0 then
    some (jsSwapWith layers (jsFindIndex layers id) (jsFindIndex layers id - 1))
  else none

/-- `EditorState` as the JS runtime sees it: the layer array may contain
`undefined` holes planted by the broken swap. -/
structure JsEditorState where
  imageData : Option ImageData
  textLayers : List (Option TextLayer)
  selectedLayerId : Option String
  selectedLayerIds : List String
  snapGuides : SnapGuides
  customFonts : List CustomFont
deriving DecidableEq

/-- The inclusion of well-typed states into JS runtime states (every layer
present, no holes). -/
def EditorState.toJs (s : EditorState) : JsEditorState :=
  { imageData := s.imageData
    textLayers := s.textLayers.map some
    selectedLayerId := s.selectedLayerId
    selectedLayerIds := s.selectedLayerIds
    snapGuides := s.snapGuides
    customFonts := s.customFonts }

/-- Map a function over every snapshot of a history. -/
def HistoryState.map (f : σ → τ) (h : HistoryState σ) : HistoryState τ :=
  { past := h.past.map f, present := f h.present, future := h.future.map f }

/-- `moveLayerUp` (lines 157–167) as a transition on the JS runtime state:
when the guard passes, the swapped (possibly corrupted) array is committed
through `createHistoryState`; otherwise nothing is set. -/
def moveLayerUp (id : String) (h : HistoryState EditorState) :
    HistoryState JsEditorState :=
  match moveLayerUpCommit id h.present.textLayers with
  | some arr =>
      createHistoryState { h.present.toJs with textLayers := arr }
        (h.map EditorState.toJs)
  | none => h.map EditorState.toJs

/-- `moveLayerDown` (lines 169–179), same shape as `moveLayerUp`. -/
def moveLayerDown (id : String) (h : HistoryState EditorState) :
    HistoryState JsEditorState :=
  match moveLayerDownCommit id h.present.textLayers with
  | some arr =>
      createHistoryState { h.present.toJs with textLayers := arr }
        (h.map EditorState.toJs)
  | none => h.map EditorState.toJs

/-! ## PNG export (`ExportManager.exportToPNG`, lines 321–475)

The canvas-drawing part of the export loop (lines 363–436) is extracted as
a pure function from the image descriptor and the layer list to the list of
`fillText` commands it issues, each with the canvas state (font, fill,
alpha, align, baseline, shadow) and the transform ops in effect. -/

/-- A canvas coordinate-system operation issued before drawing. -/
inductive CanvasOp where
  | translate (a b : ℚ)
  | rotateDeg (deg : ℚ)
  | scaleOp (sx sy : ℚ)
deriving DecidableEq

/-- The shadow configuration set when `shadowBlur > 0` (lines 392–397). -/
structure ShadowSpec where
  color : String
  blur : ℚ
  offsetX : ℚ
  offsetY : ℚ
deriving DecidableEq

/-- One `ctx.fillText(line, lineX, lineY)` call with the canvas state in
effect. -/
structure TextDraw where
  line : String
  x : ℚ
  y : ℚ
  fontWeight : String
  fontFamily : String
  fontSize : ℚ
  fill : String
  alpha : ℚ
  align : String
  baseline : String
  shadow : Option ShadowSpec
  transform : List CanvasOp
deriving DecidableEq

/-- `layer.zIndex || 0`, the sort key of the export and preview renderers. -/
def zIndexD (l : TextLayer) : ℚ :=
  jsOrQ l.zIndex 0

/-- Split a character list at every newline (empty segments kept). -/
def splitOnNl : List Char → List (List Char)
  | [] => [[]]
  | c :: rest =>
      if c = '\x0a' then [] :: splitOnNl rest
      else
        match splitOnNl rest with
        | [] => [[c]]
        | seg :: segs => (c :: seg) :: segs

/-- JS `text.split("\x0a")`: the newline-separated segments of the string,
keeping empty segments (`""` splits to `[""]`, a trailing newline yields a
trailing `""`). -/
def jsSplitNewline (s : String) : List String :=
  (splitOnNl s.toList).map (fun cs => String.mk cs)

/-- Stable insertion into an ascending run (equal keys keep their original
relative order, matching the stable JS `Array.prototype.sort`). -/
def insertByZ (a : TextLayer) : List TextLayer → List TextLayer
  | [] => [a]
  | b :: bs => if zIndexD b ≤ zIndexD a then b :: insertByZ a bs else a :: b :: bs

/-- `[...textLayers].sort((a, b) => (a.zIndex || 0) - (b.zIndex || 0))`:
stable ascending sort by `zIndex || 0`. -/
def sortByZ : List TextLayer → List TextLayer
  | [] => []
  | a :: rest => insertByZ a (sortByZ rest)

/-- The `fillText` commands one layer contributes (lines 377–436): scaled
font size `fontSize * min(scaleX, scaleY)`, position `(x*scaleX, y*scaleY)`,
optional shadow, the translate/rotate/scale/translate transform when any of
`rotation`/`scaleX`/`scaleY` is truthy, and one command per
newline-separated line with alignment-adjusted `lineX`. -/
def layerDrawCommands (scaleX scaleY : ℚ) (l : TextLayer) : List TextDraw :=
  let scaledFontSize := l.fontSize * min scaleX scaleY
  let fontWeight := jsOrS l.fontWeight "normal"
  let fontFamily := if l.fontFamily = "" then "Arial" else l.fontFamily
  let shadow : Option ShadowSpec :=
    if l.shadowBlur > 0 then
      some { color := l.shadowColor
             blur := l.shadowBlur * min scaleX scaleY
             offsetX := l.shadowOffsetX * scaleX
             offsetY := l.shadowOffsetY * scaleY }
    else none
  let x := l.x * scaleX
  let y := l.y * scaleY
  let transform : List CanvasOp :=
    if jsTruthyQ l.rotation || jsTruthyQ l.scaleX || jsTruthyQ l.scaleY then
      let centerX := x + (if jsTruthyQ l.width then l.width.getD 0 * scaleX / 2 else 0)
      let centerY := y + scaledFontSize / 2
      [CanvasOp.translate centerX centerY] ++
        (if jsTruthyQ l.rotation then [CanvasOp.rotateDeg (l.rotation.getD 0)]
         else []) ++
        (if jsTruthyQ l.scaleX || jsTruthyQ l.scaleY then
          [CanvasOp.scaleOp (jsOrQ l.scaleX 1) (jsOrQ l.scaleY 1)]
         else []) ++
        [CanvasOp.translate (-centerX) (-centerY)]
    else []
  let lines := jsSplitNewline l.text
  let lineHeight := scaledFontSize * l.lineHeight
  lines.enum.map (fun p =>
    let lineY := y + (p.1 : ℚ) * lineHeight
    let lineX :=
      if (l.align == "center") && jsTruthyQ l.width then
        x + l.width.getD 0 * scaleX / 2
      else if (l.align == "right") && jsTruthyQ l.width then
        x + l.width.getD 0 * scaleX
      else x
    { line := p.2, x := lineX, y := lineY
      fontWeight := fontWeight, fontFamily := fontFamily
      fontSize := scaledFontSize, fill := l.fill, alpha := l.opacity
      align := l.align, baseline := "top", shadow := shadow
      transform := transform })

/-- All `fillText` commands of one export: layers sorted by `zIndex || 0`,
layers with `visible === false` skipped, then per-layer commands in order
(lines 363–440). -/
def exportDrawCommands (imageData : ImageData) (textLayers : List TextLayer) :
    List TextDraw :=
  let scaleX := imageData.width / imageData.displayWidth
  let scaleY := imageData.height / imageData.displayHeight
  ((sortByZ textLayers).filter (fun l => !(l.visible == some false))).flatMap
    (layerDrawCommands scaleX scaleY)

/-- One canvas op as a map of the local drawing point to the enclosing
coordinate system.  Rotation by a nonzero angle needs trigonometry, which
never arises for the rotation-free transforms evaluated here, so it yields
`none`. -/
def applyOp : CanvasOp → ℚ × ℚ → Option (ℚ × ℚ)
  | CanvasOp.translate a b, (px, py) => some (px + a, py + b)
  | CanvasOp.scaleOp sx sy, (px, py) => some (sx * px, sy * py)
  | CanvasOp.rotateDeg d, p => if d = 0 then some p else none

/-- Device position of a point drawn under a list of canvas ops: ops are
applied to the coordinate system in order, so the innermost (last-issued)
op acts on the point first. -/
def applyOps : List CanvasOp → ℚ × ℚ → Option (ℚ × ℚ)
  | [], p => some p
  | op :: rest, p => (applyOps rest p).bind (applyOp op)

/-! ## Live preview renderers -/

/-- The layers the Konva preview renders
(`src/components/konva-canvas.tsx`, lines 134–137):
`textLayers.filter(l => l.visible).sort(by zIndex || 0)` — a layer whose
`visible` is `undefined` is filtered out. -/
def konvaRenderedLayers (textLayers : List TextLayer) : List TextLayer :=
  sortByZ (textLayers.filter (fun l => jsTruthyB l.visible))

/-- The layers the fallback canvas preview draws
(`src/components/canvas-wrapper.tsx`, lines 63–66):
`textLayers.filter(l => l.visible)`. -/
def canvasWrapperDrawnLayers (textLayers : List TextLayer) : List TextLayer :=
  textLayers.filter (fun l => jsTruthyB l.visible)

/-! ## Z-order actions (spec-modelled) -/

/-- Largest `zIndex || 0` among the layers (`0` for an empty list). -/
def maxZ : List TextLayer → ℚ
  | [] => 0
  | l :: ls => ls.foldl (fun m x => max m (zIndexD x)) (zIndexD l)

/-- Smallest `zIndex || 0` among the layers (`0` for an empty list). -/
def minZ : List TextLayer → ℚ
  | [] => 0
  | l :: ls => ls.foldl (fun m x => min m (zIndexD x)) (zIndexD l)

/-- Modelled from the spec: `bringToFront` is invoked by the UI
(`src/unnamed/part_001`) but its store implementation is not present under
`src/`; per spec §4.2 it "moves the z-order index to `max(existing)+1`",
independent of array position, for an existing layer id. -/
def bringToFront (id : String) (s : EditorState) : EditorState :=
  if s.textLayers.any (fun l => l.id == id) then
    { s with textLayers := s.textLayers.map (fun l =>
        if l.id == id then { l with zIndex := some (maxZ s.textLayers + 1) }
        else l) }
  else s

/-- Modelled from the spec: `sendToBack` is invoked by the UI
(`src/unnamed/part_001`) but its store implementation is not present under
`src/`; per spec §4.2 it "moves the z-order index to `min(existing)-1`". -/
def sendToBack (id : String) (s : EditorState) : EditorState :=
  if s.textLayers.any (fun l => l.id == id) then
    { s with textLayers := s.textLayers.map (fun l =>
        if l.id == id then { l with zIndex := some (minZ s.textLayers - 1) }
        else l) }
  else s

/-! ## Concrete sample values (used by witnesses and counterexamples) -/

/-- A representative text layer in the shape the UI creates
(`src/unnamed/part_001`, lines ~355–383): display position (50,50),
`fontSize 24`, left-aligned, rotation 0 and scale 1. -/
def baseLayer : TextLayer :=
  { id := "text-1", text := "Hello", x := 50, y := 50, fontSize := 24
    fontFamily := "Arial", fontWeight := some "normal", fill := "#000000"
    opacity := 1, align := "left", lineHeight := 1, letterSpacing := 0
    shadowColor := "#000000", shadowBlur := 0, shadowOffsetX := 0
    shadowOffsetY := 0, width := none, rotation := some 0, scaleX := some 1
    scaleY := some 1, locked := some false, visible := some true
    fontStyle := some "normal", textDecoration := some ""
    shadowOpacity := some 0, zIndex := some 0 }

/-- A 2000×1000 image displayed at 800×400 (axis scale factors 2.5). -/
def sampleImage : ImageData :=
  { src := "blob:composition", width := 2000, height := 1000
    displayWidth := 800, displayHeight := 400 }

/-- A second distinct layer. -/
def otherLayer : TextLayer :=
  { baseLayer with id := "text-2", text := "World", x := 100, y := 100 }

/-- Two distinguishable editor states (they differ in the layer list). -/
def sampleState1 : EditorState :=
  { initialState with textLayers := [baseLayer] }

/-- See `sampleState1`. -/
def sampleState2 : EditorState :=
  { initialState with textLayers := [baseLayer, otherLayer] }

/-- A state with two unlocked layers where the second one is selected. -/
def state6 : EditorState :=
  { initialState with
      textLayers := [baseLayer, otherLayer]
      selectedLayerId := some "text-2" }

/-- A run of `setSelectedLayerId` calls applied in order. -/
def applySelections (ids : List (Option String)) (h : HistoryState EditorState) :
    HistoryState EditorState :=
  ids.foldl (fun acc i => setSelectedLayerId i acc) h

/-! ## Project serialization (`ExportManager`, lines 478–519)

The project document is modelled at the level of the parsed JSON object:
`JSON.parse(JSON.stringify ·)` is the identity on this data (finite
numbers, strings, nested records with `null`s), so serialization is the
construction of the document and deserialization is `importProjectData`'s
inspection of it.  Fields a hand-written JSON file could omit are
`Option`s, with `none` for absent-or-`null`. -/

structure ProjectData where
  version : Option String
  timestamp : Option String
  imageData : Option ImageData
  textLayers : Option (List TextLayer)
deriving DecidableEq

/-- `exportProjectData` (lines 478–496): builds
`{version: "1.0", timestamp, imageData, textLayers}`.  The timestamp is a
parameter (the source reads the wall clock). -/
def exportProjectData (imageData : Option ImageData)
    (textLayers : List TextLayer) (timestamp : String) : ProjectData :=
  { version := some "1.0"
    timestamp := some timestamp
    imageData := imageData
    textLayers := some textLayers }

/-- Truthiness of a JS string that may be `undefined` (`""` is falsy). -/
def jsTruthyOptS (o : Option String) : Bool :=
  match o with
  | none => false
  | some s => decide (s ≠ "")

/-- `importProjectData` (lines 499–519): rejects a document whose
`version` or `textLayers` is falsy (an array is always truthy, so only an
absent `textLayers` fails), then returns
`{imageData: d.imageData || null, textLayers: d.textLayers || []}`. -/
def importProjectData (p : ProjectData) :
    Except String (Option ImageData × List TextLayer) :=
  if !jsTruthyOptS p.version || p.textLayers.isNone then
    Except.error "Failed to import project file. Please check the file format."
  else
    Except.ok (p.imageData, p.textLayers.getD [])

section TakeLastLemmas

variable {α : Type}

theorem takeLast_length (l : List α) (n : Nat) :
    (takeLast l n).length = min n l.length := by
  unfold takeLast
  rw [List.length_drop]
  omega

theorem takeLast_of_length_le (l : List α) (n : Nat) (h : l.length ≤ n) :
    takeLast l n = l := by
  unfold takeLast
  have hz : l.length - n = 0 := by omega
  rw [hz, List.drop_zero]

theorem takeLast_append (A B : List α) (n : Nat) :
    takeLast (A ++ B) n = takeLast A (n - B.length) ++ takeLast B n := by
  unfold takeLast
  rw [List.drop_append_eq_append_drop, List.length_append]
  have h2 : A.length + B.length - n - A.length = B.length - n := by omega
  rw [h2]
  by_cases hn : B.length ≤ n
  · have h1 : A.length + B.length - n = A.length - (n - B.length) := by omega
    rw [h1]
  · have hA1 : List.drop (A.length + B.length - n) A = [] :=
      List.drop_eq_nil_of_le (by omega)
    have hA2 : List.drop (A.length - (n - B.length)) A = [] :=
      List.drop_eq_nil_of_le (by omega)
    rw [hA1, hA2]

theorem takeLast_takeLast (A : List α) (m k : Nat) :
    takeLast (takeLast A m) k = takeLast A (min m k) := by
  unfold takeLast
  rw [List.length_drop, List.drop_drop]
  congr 1
  omega

end TakeLastLemmas

section DropLastNLemmas

variable {α : Type}

theorem dropLastN_zero (l : List α) : dropLastN l 0 = l := by
  unfold dropLastN
  rw [Nat.sub_zero, List.take_length]

theorem dropLastN_length (l : List α) (k : Nat) :
    (dropLastN l k).length = l.length - k := by
  unfold dropLastN
  rw [List.length_take]
  omega

theorem dropLast_dropLastN (l : List α) (k : Nat) :
    (dropLastN l k).dropLast = dropLastN l (k + 1) := by
  unfold dropLastN
  rw [List.dropLast_eq_take, List.length_take, List.take_take]
  congr 1
  omega

theorem dropLastN_append (C D : List α) (k : Nat) (hk : k ≤ D.length) :
    dropLastN (C ++ D) k = C ++ dropLastN D k := by
  unfold dropLastN
  rw [List.length_append, List.take_append_eq_append_take]
  have hC : List.take (C.length + D.length - k) C = C :=
    List.take_of_length_le (by omega)
  have hidx : C.length + D.length - k - C.length = D.length - k := by omega
  rw [hC, hidx]

theorem getLast?_dropLastN (l : List α) (k : Nat) (hk : k < l.length) :
    (dropLastN l k).getLast? = l[l.length - k - 1]? := by
  unfold dropLastN
  rw [List.getLast?_eq_getElem?, List.length_take]
  have hlt : min (l.length - k) l.length - 1 < l.length - k := by omega
  rw [List.getElem?_take_of_lt hlt]
  congr 1
  omega

end DropLastNLemmas

section CommitListLemmas

variable {σ : Type} {α : Type}

theorem commitList_append (s1 s2 : List σ) (h : HistoryState σ) :
    commitList (s1 ++ s2) h = commitList s2 (commitList s1 h) := by
  unfold commitList
  rw [List.foldl_append]

theorem takeLast_takeLast_append (A B : List α) (n : Nat) :
    takeLast (takeLast A n ++ B) n = takeLast (A ++ B) n := by
  rw [takeLast_append, takeLast_takeLast, takeLast_append]
  have hm : min n (n - B.length) = n - B.length := by omega
  rw [hm]

/-- Shape of the history after a non-empty run of commits: the new `past`
is the last `MAX_HISTORY_SIZE` entries of the old `past` followed by all
presents but the final one, the `present` is the last committed state, and
`future` is empty. -/
theorem commitList_eq (ss : List σ) (h : HistoryState σ) (hne : ss ≠ []) :
    commitList ss h =
      { past := takeLast (h.past ++ (h.present :: ss).dropLast) MAX_HISTORY_SIZE
        present := ss.getLastD h.present
        future := [] } := by
  induction ss generalizing h with
  | nil => exact absurd rfl hne
  | cons x t ih =>
      cases t with
      | nil => rfl
      | cons y u =>
          have hstep : commitList (x :: y :: u) h =
              commitList (y :: u) (createHistoryState x h) := rfl
          rw [hstep, ih (createHistoryState x h) (by simp)]
          have hpast : (createHistoryState x h).past ++
                ((createHistoryState x h).present :: y :: u).dropLast =
              takeLast (h.past ++ [h.present]) MAX_HISTORY_SIZE ++
                (x :: y :: u).dropLast := by
            simp [createHistoryState]
          rw [hpast]
          have hassoc : h.past ++ (h.present :: x :: y :: u).dropLast =
              (h.past ++ [h.present]) ++ (x :: y :: u).dropLast := by
            rw [List.dropLast_cons_of_ne_nil (by simp), List.append_assoc]
            rfl
          rw [hassoc, takeLast_takeLast_append]
          simp only [List.getLastD_cons, createHistoryState]

end CommitListLemmas

section HistoryPhases

variable {σ : Type} {α : Type}

theorem getD_cons_length (a : α) (l : List α) (d : α) :
    (a :: l).getD l.length d = l.getLastD a := by
  induction l generalizing a with
  | nil => rfl
  | cons b t ih =>
      simp only [List.length_cons, List.getD_cons_succ, List.getLastD_cons]
      exact ih b

theorem getD_cons_take (a : α) (l : List α) (i : Nat) (d : α) :
    (a :: l.take i).getD i d = (a :: l).getD i d := by
  have h1 : a :: l.take i = (a :: l).take (i + 1) := rfl
  rw [h1, List.getD_eq_getElem?_getD, List.getD_eq_getElem?_getD,
    List.getElem?_take_of_lt (Nat.lt_succ_self i)]

/-- `present` after a run of commits is the last committed state (or the
original present when the run is empty). -/
theorem commitList_present (ts : List σ) (h : HistoryState σ) :
    (commitList ts h).present = (h.present :: ts).getD ts.length h.present := by
  cases ts with
  | nil => rfl
  | cons a t =>
      rw [commitList_eq (a :: t) h (by simp)]
      exact (getD_cons_length h.present (a :: t) h.present).symm

theorem undo_eq_of_getLast? (h : HistoryState σ) (a : σ)
    (hl : h.past.getLast? = some a) :
    undo h = { past := h.past.dropLast, present := a
               future := h.present :: h.future } := by
  unfold undo
  rw [hl]

/-- Shape of the history after `k` undos following a non-empty run of at
most `MAX_HISTORY_SIZE` commits: the last `k` past entries have been popped
back, the present is the state the run had `k` commits earlier, and the
future holds the `k` undone states in order. -/
theorem undo_phase (h : HistoryState σ) (ss : List σ) (hne : ss ≠ [])
    (hcap : ss.length ≤ MAX_HISTORY_SIZE) (k : Nat) :
    k ≤ ss.length →
    undo^[k] (commitList ss h) =
      { past := dropLastN
          (takeLast (h.past ++ (h.present :: ss).dropLast) MAX_HISTORY_SIZE) k
        present := (h.present :: ss).getD (ss.length - k) h.present
        future := ss.drop (ss.length - k) } := by
  induction k with
  | zero =>
      intro _
      rw [Function.iterate_zero_apply, commitList_eq ss h hne, dropLastN_zero,
        Nat.sub_zero, List.drop_length, getD_cons_length]
  | succ k ih =>
      intro hk
      have hk' : k ≤ ss.length := by omega
      rw [Function.iterate_succ_apply', ih hk']
      have hDlen : (h.present :: ss).dropLast.length = ss.length := by simp
      have hPlen :
          (takeLast (h.past ++ (h.present :: ss).dropLast)
            MAX_HISTORY_SIZE).length =
          min MAX_HISTORY_SIZE (h.past.length + ss.length) := by
        rw [takeLast_length, List.length_append, hDlen]
      have hkP : k <
          (takeLast (h.past ++ (h.present :: ss).dropLast)
            MAX_HISTORY_SIZE).length := by
        rw [hPlen]; omega
      have hsplit : takeLast (h.past ++ (h.present :: ss).dropLast)
            MAX_HISTORY_SIZE =
          takeLast h.past (MAX_HISTORY_SIZE - ss.length) ++
            (h.present :: ss).dropLast := by
        rw [takeLast_append, hDlen,
          takeLast_of_length_le _ _ (le_trans (le_of_eq hDlen) hcap)]
      have hClen :
          (takeLast (h.past ++ (h.present :: ss).dropLast)
            MAX_HISTORY_SIZE).length =
          (takeLast h.past (MAX_HISTORY_SIZE - ss.length)).length +
            ss.length := by
        rw [hsplit, List.length_append, hDlen]
      have hbound : ss.length - k - 1 < (h.present :: ss).length := by
        simp only [List.length_cons]; omega
      have hgetP :
          (takeLast (h.past ++ (h.present :: ss).dropLast)
            MAX_HISTORY_SIZE)[(takeLast (h.past ++ (h.present :: ss).dropLast)
              MAX_HISTORY_SIZE).length - k - 1]? =
          (h.present :: ss)[ss.length - k - 1]? := by
        rw [hClen, hsplit, List.getElem?_append_right (by omega)]
        have hj : (takeLast h.past (MAX_HISTORY_SIZE - ss.length)).length +
              ss.length - k - 1 -
              (takeLast h.past (MAX_HISTORY_SIZE - ss.length)).length =
            ss.length - k - 1 := by omega
        rw [hj, List.getElem?_dropLast,
          if_pos (by simp only [List.length_cons]; omega)]
      have hlast :
          (dropLastN (takeLast (h.past ++ (h.present :: ss).dropLast)
            MAX_HISTORY_SIZE) k).getLast? =
          some ((h.present :: ss).getD (ss.length - k - 1) h.present) := by
        rw [getLast?_dropLastN _ k hkP, hgetP,
          List.getElem?_eq_getElem hbound, List.getD_eq_getElem?_getD,
          List.getElem?_eq_getElem hbound]
        rfl
      rw [undo_eq_of_getLast? _ _ hlast]
      have hidx2 : ss.length - (k + 1) = ss.length - k - 1 := by omega
      have hfut : ss.drop (ss.length - k - 1) =
          (h.present :: ss).getD (ss.length - k) h.present ::
            ss.drop (ss.length - k) := by
        obtain ⟨j, hj1, hj2⟩ :
            ∃ j, ss.length - k - 1 = j ∧ ss.length - k = j + 1 :=
          ⟨ss.length - k - 1, rfl, by omega⟩
        rw [hj1, hj2, List.getD_cons_succ]
        have hjb : j < ss.length := by omega
        rw [List.drop_eq_getElem_cons hjb]
        congr 1
        rw [List.getD_eq_getElem?_getD, List.getElem?_eq_getElem hjb]
        rfl
      show ({ past := (dropLastN (takeLast (h.past ++ (h.present :: ss).dropLast)
                MAX_HISTORY_SIZE) k).dropLast
              present := (h.present :: ss).getD (ss.length - k - 1) h.present
              future := (h.present :: ss).getD (ss.length - k) h.present ::
                ss.drop (ss.length - k) } : HistoryState σ) = _
      rw [dropLast_dropLastN, hidx2, hfut]

theorem redo_eq_of_future_cons (h : HistoryState σ) (a : σ) (rest : List σ)
    (hf : h.future = a :: rest) :
    redo h = { past := h.past ++ [h.present], present := a
               future := rest } := by
  unfold redo
  rw [hf]

/-- Shape of the history after `k` redos from a state whose future holds
`fs`: the first `k` future entries are replayed onto `past` in order. -/
theorem redo_phase (C : List σ) (q : σ) (fs : List σ) (k : Nat) :
    k ≤ fs.length →
    redo^[k] ({ past := C, present := q, future := fs } : HistoryState σ) =
      { past := C ++ (q :: fs).take k
        present := (q :: fs).getD k q
        future := fs.drop k } := by
  induction k with
  | zero =>
      intro _
      rw [Function.iterate_zero_apply, List.take_zero, List.append_nil,
        List.drop_zero]
      rfl
  | succ k ih =>
      intro hk
      have hk' : k ≤ fs.length := by omega
      have hkb : k < fs.length := by omega
      rw [Function.iterate_succ_apply', ih hk']
      have hfs : fs.drop k = fs.get ⟨k, hkb⟩ :: fs.drop (k + 1) := by
        rw [List.drop_eq_getElem_cons hkb]
        rfl
      rw [redo_eq_of_future_cons _ _ _ hfs]
      have hpast : (C ++ (q :: fs).take k) ++ [(q :: fs).getD k q] =
          C ++ (q :: fs).take (k + 1) := by
        rw [List.append_assoc]
        congr 1
        rw [List.take_succ, List.getElem?_eq_getElem
          (by simp only [List.length_cons]; omega)]
        congr 1
        rw [List.getD_eq_getElem?_getD, List.getElem?_eq_getElem
          (by simp only [List.length_cons]; omega)]
        rfl
      have hpres : fs.get ⟨k, hkb⟩ = (q :: fs).getD (k + 1) q := by
        rw [List.getD_cons_succ, List.getD_eq_getElem?_getD,
          List.getElem?_eq_getElem hkb]
        rfl
      rw [hpast, hpres]

end HistoryPhases

/-! ## Claim theorems -/

/-- C1 — History round-trip: for any starting history state and any
sequence of at most `MAX_HISTORY_SIZE = 25` committed states, after the
whole sequence is committed, the present reached after `k` undos equals the
present the run had after the first `length - k` commits, and the present
reached after `k` redos (following `length` undos) equals the present the
run had after the first `k` commits — byte-identical states at every
intermediate step. -/
theorem history_roundtrip (h : HistoryState EditorState)
    (ss : List EditorState) (hcap : ss.length ≤ MAX_HISTORY_SIZE)
    (k : Nat) (hk : k ≤ ss.length) :
    (undo^[k] (commitList ss h)).present =
      (commitList (ss.take (ss.length - k)) h).present ∧
    (redo^[k] (undo^[ss.length] (commitList ss h))).present =
      (commitList (ss.take k) h).present := by
  by_cases hne : ss = []
  · subst hne
    have hk0 : k = 0 := by simpa using hk
    subst hk0
    exact ⟨rfl, rfl⟩
  · constructor
    · rw [undo_phase h ss hne hcap k hk, commitList_present]
      have hlen : (ss.take (ss.length - k)).length = ss.length - k := by
        rw [List.length_take]; omega
      rw [hlen, getD_cons_take]
    · rw [undo_phase h ss hne hcap ss.length le_rfl, Nat.sub_self,
        List.drop_zero, List.getD_cons_zero, redo_phase _ _ _ k hk,
        commitList_present]
      have hlen2 : (ss.take k).length = k := by
        rw [List.length_take]; omega
      rw [hlen2, getD_cons_take]

/-- Witness for C1: two commits onto the empty store, one undo and —
after both undos — one redo, each restoring the recorded present. -/
theorem history_roundtrip_witness :
    (undo^[1] (commitList [sampleState1, sampleState2] emptyHistory)).present =
      (commitList ([sampleState1, sampleState2].take
        ([sampleState1, sampleState2].length - 1)) emptyHistory).present ∧
    (redo^[1] (undo^[[sampleState1, sampleState2].length]
        (commitList [sampleState1, sampleState2] emptyHistory))).present =
      (commitList ([sampleState1, sampleState2].take 1) emptyHistory).present :=
  history_roundtrip emptyHistory [sampleState1, sampleState2]
    (by decide) 1 (by decide)

/-- C2 — Bounded history: committing `MAX_HISTORY_SIZE + k` states
(`k > 0`) onto the empty store keeps `past.length ≤ MAX_HISTORY_SIZE` after
every prefix of the run, and the oldest surviving past entry is the state
produced by the `k`-th commit (eviction is FIFO from the old end). -/
theorem bounded_history (k : Nat) (ss : List EditorState) (hkpos : 0 < k)
    (hlen : ss.length = MAX_HISTORY_SIZE + k) :
    (∀ i : Nat,
      (commitList (ss.take i) emptyHistory).past.length ≤ MAX_HISTORY_SIZE) ∧
    (commitList ss emptyHistory).past.head? = ss[k - 1]? := by
  constructor
  · intro i
    by_cases hti : ss.take i = []
    · rw [hti]
      exact Nat.zero_le _
    · rw [commitList_eq (ss.take i) emptyHistory hti]
      show (takeLast (emptyHistory.past ++
        (emptyHistory.present :: ss.take i).dropLast) MAX_HISTORY_SIZE).length ≤
        MAX_HISTORY_SIZE
      rw [takeLast_length]
      omega
  · have hne : ss ≠ [] := by
      intro hcon
      rw [hcon] at hlen
      simp at hlen
      omega
    rw [commitList_eq ss emptyHistory hne]
    show (takeLast (([] : List EditorState) ++ (initialState :: ss).dropLast)
      MAX_HISTORY_SIZE).head? = ss[k - 1]?
    rw [List.nil_append]
    unfold takeLast
    rw [List.head?_drop]
    have hM : MAX_HISTORY_SIZE = 25 := rfl
    have hDlen : (initialState :: ss).dropLast.length = ss.length := by simp
    rw [hDlen, List.getElem?_dropLast,
      if_pos (by simp only [List.length_cons]; omega)]
    have hidx : ss.length - MAX_HISTORY_SIZE = k := by omega
    rw [hidx]
    obtain ⟨j, hj⟩ : ∃ j, k = j + 1 := ⟨k - 1, by omega⟩
    subst hj
    simp

/-- Witness for C2: 26 commits onto the empty store; the bound holds at
every prefix and the oldest surviving past entry is the 1st commit. -/
theorem bounded_history_witness :
    (∀ i : Nat,
      (commitList ((List.replicate 26 sampleState1).take i)
        emptyHistory).past.length ≤ MAX_HISTORY_SIZE) ∧
    (commitList (List.replicate 26 sampleState1) emptyHistory).past.head? =
      (List.replicate 26 sampleState1)[1 - 1]? :=
  bounded_history 1 (List.replicate 26 sampleState1) (by decide) (by decide)

/-- C3 — Project round-trip: importing the document produced by exporting
any image descriptor (including `none`) and any layer list (including `[]`)
returns exactly the same image descriptor and layer list. -/
theorem project_roundtrip (img : Option ImageData) (layers : List TextLayer)
    (ts : String) :
    importProjectData (exportProjectData img layers ts) =
      Except.ok (img, layers) := rfl

/-- C4 counterexample — `addTextLayer` performs no duplicate-id check: a
layer whose id is already present is appended anyway and the history state
is mutated, contradicting "fails with a ValidationError and leaves the
history state unmutated". -/
theorem addTextLayer_duplicate_not_rejected :
    (addTextLayer { baseLayer with text := "dup" }
        ⟨[], sampleState1, []⟩).present.textLayers =
      [baseLayer, { baseLayer with text := "dup" }] ∧
    addTextLayer { baseLayer with text := "dup" } ⟨[], sampleState1, []⟩ ≠
      ⟨[], sampleState1, []⟩ := by
  constructor
  · rfl
  · decide

/-- C4 (amended) — `addTextLayer` unconditionally appends the layer, sets
`selectedLayerId` to its id and commits a new history state, whether or not
the id is already present. -/
theorem addTextLayer_appends (h : HistoryState EditorState)
    (layer : TextLayer) :
    (addTextLayer layer h).present.textLayers =
      h.present.textLayers ++ [layer] ∧
    (addTextLayer layer h).present.selectedLayerId = some layer.id ∧
    (addTextLayer layer h).past =
      takeLast (h.past ++ [h.present]) MAX_HISTORY_SIZE ∧
    (addTextLayer layer h).future = [] :=
  ⟨rfl, rfl, rfl, rfl⟩

/-- C5 — Selection independence: any run of `setSelectedLayerId` calls
leaves `past` and `future` untouched (no history entry, no cleared redo)
and changes nothing of `present` but `selectedLayerId`, which ends at the
last id set. -/
theorem selection_independence (h : HistoryState EditorState)
    (ids : List (Option String)) :
    (applySelections ids h).past = h.past ∧
    (applySelections ids h).future = h.future ∧
    (applySelections ids h).present.imageData = h.present.imageData ∧
    (applySelections ids h).present.textLayers = h.present.textLayers ∧
    (applySelections ids h).present.selectedLayerIds =
      h.present.selectedLayerIds ∧
    (applySelections ids h).present.snapGuides = h.present.snapGuides ∧
    (applySelections ids h).present.customFonts = h.present.customFonts ∧
    (applySelections ids h).present.selectedLayerId =
      ids.getLastD h.present.selectedLayerId := by
  induction ids generalizing h with
  | nil => exact ⟨rfl, rfl, rfl, rfl, rfl, rfl, rfl, rfl⟩
  | cons i t ih =>
      have hstep : applySelections (i :: t) h =
          applySelections t (setSelectedLayerId i h) := rfl
      rw [hstep, List.getLastD_cons]
      exact ih (setSelectedLayerId i h)

/-- C6 counterexample — toggling the lock of the non-selected layer
`"text-1"` clears the selection `"text-2"`, contradicting "the selection is
cleared only if that same layer was the selected one". -/
theorem toggleLock_clears_foreign_selection :
    (toggleLayerLock "text-1" ⟨[], state6, []⟩).present.selectedLayerId =
      none ∧
    state6.selectedLayerId = some "text-2" := by
  constructor
  · decide
  · rfl

/-- C6 (amended) — `toggleLayerLock` on an existing layer flips that
layer's `locked` flag; when the layer was locked (it is being unlocked) the
selection is unchanged, and when it was unlocked (it is being locked) the
selection is cleared unconditionally, whichever layer was selected. -/
theorem toggleLayerLock_spec (h : HistoryState EditorState) (id : String)
    (layer : TextLayer)
    (hfind : h.present.textLayers.find? (fun l => l.id == id) = some layer) :
    (toggleLayerLock id h).present.textLayers =
      h.present.textLayers.map (fun l =>
        if l.id == id then { l with locked := some (!jsTruthyB l.locked) }
        else l) ∧
    (toggleLayerLock id h).present.selectedLayerId =
      (if jsTruthyB layer.locked then h.present.selectedLayerId else none) ∧
    (toggleLayerLock id h).past =
      takeLast (h.past ++ [h.present]) MAX_HISTORY_SIZE ∧
    (toggleLayerLock id h).future = [] := by
  unfold toggleLayerLock
  rw [hfind]
  exact ⟨rfl, rfl, rfl, rfl⟩

/-- Witness for the amended C6: unlocking would keep, locking clears —
here locking `"text-1"` in `state6`. -/
theorem toggleLayerLock_spec_witness :
    (toggleLayerLock "text-1" ⟨[], state6, []⟩).present.textLayers =
      state6.textLayers.map (fun l =>
        if l.id == "text-1" then { l with locked := some (!jsTruthyB l.locked) }
        else l) ∧
    (toggleLayerLock "text-1" ⟨[], state6, []⟩).present.selectedLayerId =
      (if jsTruthyB baseLayer.locked then state6.selectedLayerId else none) ∧
    (toggleLayerLock "text-1" ⟨[], state6, []⟩).past =
      takeLast ([] ++ [state6]) MAX_HISTORY_SIZE ∧
    (toggleLayerLock "text-1" ⟨[], state6, []⟩).future = [] :=
  toggleLayerLock_spec ⟨[], state6, []⟩ "text-1" baseLayer (by decide)

/-- C9 — `moveLayerUp` with an id that matches no layer, on a non-empty
layer list, is not a no-op: `findIndex` yields `-1`, the swap writes the
`undefined` read at index `-1` into position 0 of the copied array, and a
new history state containing that corrupted list is committed.
`moveLayerDown` with a missing id leaves the history state unchanged. -/
theorem moveLayer_missing_id (h : HistoryState EditorState) (id : String)
    (hne : h.present.textLayers ≠ [])
    (hmiss : ∀ l ∈ h.present.textLayers, l.id ≠ id) :
    moveLayerUp id h =
      createHistoryState
        { h.present.toJs with
            textLayers := none :: (h.present.textLayers.drop 1).map some }
        (h.map EditorState.toJs) ∧
    moveLayerDown id h = h.map EditorState.toJs := by
  have hidx : jsFindIndex h.present.textLayers id = -1 := by
    unfold jsFindIndex
    have hnone : h.present.textLayers.findIdx? (fun l => l.id == id) = none := by
      rw [List.findIdx?_eq_none_iff]
      intro l hl
      simpa using hmiss l hl
    rw [hnone]
  obtain ⟨a, t, hat⟩ : ∃ a t, h.present.textLayers = a :: t := by
    cases hl : h.present.textLayers with
    | nil => exact absurd hl hne
    | cons a t => exact ⟨a, t, rfl⟩
  have hcommit : moveLayerUpCommit id h.present.textLayers =
      some (none :: (h.present.textLayers.drop 1).map some) := by
    unfold moveLayerUpCommit
    rw [hidx, if_pos (by rw [hat]; simp only [List.length_cons]; push_cast; omega)]
    rw [hat]
    simp [jsSwapWith, jsSetLayer, jsGetLayer]
  have hcommit2 : moveLayerDownCommit id h.present.textLayers = none := by
    unfold moveLayerDownCommit
    rw [hidx, if_neg (by decide)]
  constructor
  · unfold moveLayerUp
    rw [hcommit]
  · unfold moveLayerDown
    rw [hcommit2]

/-- C7 — Export scenario: for the 2000×1000 image displayed at 800×400
(axis scale factors 2.5) and a left-aligned text layer at display (50,50)
with `fontSize 24`, rotation 0 and scale 1, the export issues exactly one
`fillText`, at raw position (125,125), with device position (top-left
origin, `textBaseline = "top"`, left alignment) also (125,125) under the
transform in effect, and font size `24 * min(2.5, 2.5) = 60`. -/
theorem export_scenario :
    (exportDrawCommands sampleImage [baseLayer]).map
        (fun c => (c.x, c.y, applyOps c.transform (c.x, c.y), c.fontSize,
          c.align, c.baseline)) =
      [(125, 125, some (125, 125), 60, "left", "top")] := by
  have hsplit : jsSplitNewline "Hello" = ["Hello"] := by decide
  simp only [exportDrawCommands, sortByZ, insertByZ, layerDrawCommands,
    sampleImage, baseLayer, hsplit, jsOrS, jsOrQ, jsTruthyQ, jsTruthyB,
    zIndexD, List.filter, List.flatMap, List.enum, List.map]
  norm_num [applyOps, applyOp]

theorem le_foldl_max (zs : List TextLayer) (b : ℚ) :
    b ≤ zs.foldl (fun m x => max m (zIndexD x)) b := by
  induction zs generalizing b with
  | nil => exact le_refl b
  | cons x t ih =>
      exact le_trans (le_max_left b (zIndexD x)) (ih (max b (zIndexD x)))

theorem mem_le_foldl_max (zs : List TextLayer) (l : TextLayer) (hl : l ∈ zs) :
    ∀ b : ℚ, zIndexD l ≤ zs.foldl (fun m x => max m (zIndexD x)) b := by
  induction zs with
  | nil => cases hl
  | cons x t ih =>
      intro b
      rcases List.mem_cons.mp hl with h | h
      · subst h
        exact le_trans (le_max_right b (zIndexD l)) (le_foldl_max t _)
      · exact ih h (max b (zIndexD x))

theorem zIndexD_le_maxZ (layers : List TextLayer) (l : TextLayer)
    (hl : l ∈ layers) : zIndexD l ≤ maxZ layers := by
  cases layers with
  | nil => cases hl
  | cons a t =>
      rcases List.mem_cons.mp hl with h | h
      · subst h
        exact le_foldl_max t (zIndexD l)
      · exact mem_le_foldl_max t l h (zIndexD a)

theorem foldl_min_le (zs : List TextLayer) (b : ℚ) :
    zs.foldl (fun m x => min m (zIndexD x)) b ≤ b := by
  induction zs generalizing b with
  | nil => exact le_refl b
  | cons x t ih =>
      exact le_trans (ih (min b (zIndexD x))) (min_le_left b (zIndexD x))

theorem foldl_min_le_mem (zs : List TextLayer) (l : TextLayer) (hl : l ∈ zs) :
    ∀ b : ℚ, zs.foldl (fun m x => min m (zIndexD x)) b ≤ zIndexD l := by
  induction zs with
  | nil => cases hl
  | cons x t ih =>
      intro b
      rcases List.mem_cons.mp hl with h | h
      · subst h
        exact le_trans (foldl_min_le t _) (min_le_right b (zIndexD l))
      · exact ih h (min b (zIndexD x))

theorem minZ_le_zIndexD (layers : List TextLayer) (l : TextLayer)
    (hl : l ∈ layers) : minZ layers ≤ zIndexD l := by
  cases layers with
  | nil => cases hl
  | cons a t =>
      rcases List.mem_cons.mp hl with h | h
      · subst h
        exact foldl_min_le t (zIndexD l)
      · exact foldl_min_le_mem t l h (zIndexD a)

theorem jsOrQ_some_zero (v : ℚ) : jsOrQ (some v) 0 = v := by
  unfold jsOrQ jsTruthyQ
  by_cases hv : v = 0
  · subst hv
    simp
  · simp [hv]

/-- C8 — Z-order monotonicity: right after `bringToFront id` on a state
containing a layer with that id, that layer's `zIndex || 0` is strictly
greater than every other layer's, and symmetrically after `sendToBack id`
it is strictly smaller.  (`bringToFront`/`sendToBack` are spec-modelled;
their store implementation is not under `src/`.) -/
theorem zorder_monotonicity (s : EditorState) (id : String)
    (hex : ∃ l ∈ s.textLayers, l.id = id) :
    (∀ l ∈ (bringToFront id s).textLayers, l.id = id →
      ∀ l2 ∈ (bringToFront id s).textLayers, l2.id ≠ id →
        zIndexD l2 < zIndexD l) ∧
    (∀ l ∈ (sendToBack id s).textLayers, l.id = id →
      ∀ l2 ∈ (sendToBack id s).textLayers, l2.id ≠ id →
        zIndexD l < zIndexD l2) := by
  have hany : s.textLayers.any (fun l => l.id == id) = true := by
    rw [List.any_eq_true]
    rcases hex with ⟨l, hl, hid⟩
    exact ⟨l, hl, by simpa using hid⟩
  constructor
  · intro l hl hid l2 hl2 hid2
    rw [bringToFront, if_pos hany] at hl hl2
    rcases List.mem_map.mp hl with ⟨a, ha, hfa⟩
    rcases List.mem_map.mp hl2 with ⟨a2, ha2, hfa2⟩
    by_cases h2 : (a2.id == id) = true
    · rw [if_pos h2] at hfa2
      rw [← hfa2] at hid2
      exact absurd (by simpa using h2) hid2
    · rw [if_neg h2] at hfa2
      by_cases h1 : (a.id == id) = true
      · rw [if_pos h1] at hfa
        rw [← hfa, ← hfa2]
        show zIndexD a2 < zIndexD { a with zIndex := some (maxZ s.textLayers + 1) }
        show zIndexD a2 < jsOrQ (some (maxZ s.textLayers + 1)) 0
        rw [jsOrQ_some_zero]
        exact lt_of_le_of_lt (zIndexD_le_maxZ s.textLayers a2 ha2)
          (lt_add_of_pos_right _ one_pos)
      · rw [if_neg h1] at hfa
        rw [← hfa] at hid
        exact absurd hid (by simpa using h1)
  · intro l hl hid l2 hl2 hid2
    rw [sendToBack, if_pos hany] at hl hl2
    rcases List.mem_map.mp hl with ⟨a, ha, hfa⟩
    rcases List.mem_map.mp hl2 with ⟨a2, ha2, hfa2⟩
    by_cases h2 : (a2.id == id) = true
    · rw [if_pos h2] at hfa2
      rw [← hfa2] at hid2
      exact absurd (by simpa using h2) hid2
    · rw [if_neg h2] at hfa2
      by_cases h1 : (a.id == id) = true
      · rw [if_pos h1] at hfa
        rw [← hfa, ← hfa2]
        show zIndexD { a with zIndex := some (minZ s.textLayers - 1) } < zIndexD a2
        show jsOrQ (some (minZ s.textLayers - 1)) 0 < zIndexD a2
        rw [jsOrQ_some_zero]
        exact lt_of_lt_of_le (by linarith) (minZ_le_zIndexD s.textLayers a2 ha2)
      · rw [if_neg h1] at hfa
        rw [← hfa] at hid
        exact absurd hid (by simpa using h1)

/-- Witness for C8: bring `"text-1"` to front / send it to back in the
two-layer state. -/
theorem zorder_monotonicity_witness :
    (∀ l ∈ (bringToFront "text-1" sampleState2).textLayers, l.id = "text-1" →
      ∀ l2 ∈ (bringToFront "text-1" sampleState2).textLayers,
        l2.id ≠ "text-1" → zIndexD l2 < zIndexD l) ∧
    (∀ l ∈ (sendToBack "text-1" sampleState2).textLayers, l.id = "text-1" →
      ∀ l2 ∈ (sendToBack "text-1" sampleState2).textLayers,
        l2.id ≠ "text-1" → zIndexD l < zIndexD l2) :=
  zorder_monotonicity sampleState2 "text-1" ⟨baseLayer, by decide, rfl⟩

/-- C10 — Preview/export divergence: a layer whose `visible` field is
`undefined` is hidden by both live previews (they keep only truthy
`visible`) but drawn by the PNG export (it skips only `visible === false`),
so the renderers are not equivalent over all layer values. -/
theorem preview_export_divergence :
    konvaRenderedLayers [{ baseLayer with visible := none }] = [] ∧
    canvasWrapperDrawnLayers [{ baseLayer with visible := none }] = [] ∧
    exportDrawCommands sampleImage [{ baseLayer with visible := none }] ≠
      [] := by
  refine ⟨by decide, by decide, by decide⟩

/-- Witness for C9: a one-layer list and the absent id `"nope"`. -/
theorem moveLayer_missing_id_witness :
    moveLayerUp "nope" ⟨[], sampleState1, []⟩ =
      createHistoryState
        { sampleState1.toJs with
            textLayers := none :: (sampleState1.textLayers.drop 1).map some }
        (HistoryState.map EditorState.toJs ⟨[], sampleState1, []⟩) ∧
    moveLayerDown "nope" ⟨[], sampleState1, []⟩ =
      HistoryState.map EditorState.toJs ⟨[], sampleState1, []⟩ :=
  moveLayer_missing_id ⟨[], sampleState1, []⟩ "nope" (by decide) (by decide)
